import Mathlib

/-!
Verification of the user-status presence service.

The definitions below are shallow embeddings of the repository's
JavaScript/TypeScript source:

* `PresenceMjs` models `src/backend-wo-ts/src/services/presence.mjs`
  (the TTL-based presence registry over Redis).
* `PresenceList` models the presence-service variant with activity
  buckets (`bucketize`, `getBatchPresenceForList`).
* `WsServer` models the focus/blur subscription bookkeeping of
  `src/backend-wo-ts/src/ws/server.mjs` (second, scalable variant),
  including the transport-level pong handler.
* `WsServerTs` models the older TypeScript WebSocket server's
  `handlePing` from `src/backend/src/ws/server.ts`.
* `UsersRoute` models the `POST /users/presence` route from
  `src/backend-wo-ts/src/routes/users.mjs`.

The Redis store is modelled as a function from keys to optional
(value, ttl) pairs; TTL bookkeeping is carried as data (no time is
modelled to pass inside a single claim).  Numeric string payloads are
decimal integers; JavaScript NaN values are outside the model.
-/

namespace Presence

/-- A stored Redis value: the string payload plus the TTL (in seconds)
last applied to the key, `none` when the key has no expiry. -/
def StoreVal := String × Option Nat

/-- The Redis key space: each key is either absent or holds a value. -/
def Store := String → Option StoreVal

/-- The empty store: no keys present. -/
def emptyStore : Store := fun _ => none

/-- Redis `GET`: the payload of a key, `none` when absent. -/
def redisGet (st : Store) (k : String) : Option String :=
  (st k).map Prod.fst

/-- Redis `SET k v [EX ttl]`. -/
def redisSet (st : Store) (k v : String) (ttl : Option Nat) : Store :=
  fun x => if x = k then some (v, ttl) else st x

/-- Redis `DEL k` (single key). -/
def redisDel (st : Store) (k : String) : Store :=
  fun x => if x = k then none else st x

/-- Redis `EXISTS k` (single key): 1 when present, 0 when absent. -/
def redisExists (st : Store) (k : String) : Nat :=
  if (st k).isSome then 1 else 0

/-- Redis `EXPIRE k ttl`: returns 1 and re-arms the TTL when the key
exists, returns 0 and leaves the store unchanged otherwise. -/
def redisExpire (st : Store) (k : String) (ttl : Nat) : Nat × Store :=
  match st k with
  | none => (0, st)
  | some (v, _) => (1, redisSet st k v (some ttl))

/-- JavaScript `Number(s)` restricted to decimal integer strings. -/
def jsNumber (s : String) : Int :=
  (s.toInt?).getD 0

end Presence

namespace PresenceMjs

open Presence

/-- JavaScript `String.prototype.trim`, modelled on the character
list: drop whitespace from both ends. -/
def jsTrimList (l : List Char) : List Char :=
  ((l.dropWhile Char.isWhitespace).reverse.dropWhile Char.isWhitespace).reverse

/-- `normalizeEmail`: `String(email).trim().toLowerCase()`. -/
def normalizeEmail (email : String) : String :=
  String.mk ((jsTrimList email.data).map Char.toLower)

/-- Characters allowed by the `[^\s@]` class of the email regex. -/
def emailChunkOk (l : List Char) : Bool :=
  l.all (fun c => !c.isWhitespace && c ≠ '@')

/-- The domain part must match `[^\s@]+\.[^\s@]+`: some character before
a dot and some character after it, i.e. a dot that is neither the first
nor the last character. -/
def hasInnerDot (l : List Char) : Bool :=
  match l with
  | [] => false
  | _ :: rest => rest.dropLast.contains '.'

/-- Split a character list at every occurrence of a separator. -/
def splitOnChar (sep : Char) : List Char → List (List Char)
  | [] => [[]]
  | c :: rest =>
      let r := splitOnChar sep rest
      if c = sep then [] :: r
      else
        match r with
        | [] => [[c]]
        | h :: t => (c :: h) :: t

/-- `isValidEmail`: the regex `^[^\s@]+@[^\s@]+\.[^\s@]+$`, expressed
over the decomposition at the (necessarily unique) `@`. -/
def isValidEmail (s : String) : Bool :=
  match splitOnChar '@' s.data with
  | [localPart, domain] =>
      localPart ≠ [] && emailChunkOk localPart &&
        emailChunkOk domain && hasInnerDot domain
  | _ => false

/-- `presenceKey`. -/
def presenceKey (email : String) : String :=
  "presence:user:" ++ email

/-- `lastSeenKey`. -/
def lastSeenKey (email : String) : String :=
  "presence:lastseen:" ++ email

/-- `getLastSeen`: reads `lastSeenKey`; a missing or empty (falsy)
string yields `null`, otherwise `Number(ts)`. -/
def getLastSeen (st : Store) (email : String) : Option Int :=
  match redisGet st (lastSeenKey (normalizeEmail email)) with
  | none => none
  | some ts => if ts = "" then none else some (jsNumber ts)

/-- `updateLastSeen`: stores `String(Date.now())` with no TTL. -/
def updateLastSeen (st : Store) (email : String) (nowMs : Int) : Store :=
  redisSet st (lastSeenKey (normalizeEmail email)) (toString nowMs) none

/-- Result record of `setOnline`. -/
structure SetOnlineResult where
  statusChanged : Bool
  lastSeen : Option Int
  deriving DecidableEq, Repr

/-- `setOnline(email, serverId)`: `SET key serverId EX ttl GET`; the user
was previously offline exactly when the previous value was `null`. -/
def setOnline (ttlSeconds : Nat) (st : Store) (email serverId : String) :
    SetOnlineResult × Store :=
  let n := normalizeEmail email
  let key := presenceKey n
  let prev := redisGet st key
  let st1 := redisSet st key serverId (some ttlSeconds)
  ({ statusChanged := prev.isNone, lastSeen := getLastSeen st1 n }, st1)

/-- `refreshPresence(email, serverId)`: the owner-guarded EXPIRE script
`if GET(key)==serverId then EXPIRE(key, ttl) else 0`. -/
def refreshPresence (ttlSeconds : Nat) (st : Store) (email serverId : String) :
    Nat × Store :=
  let key := presenceKey (normalizeEmail email)
  if redisGet st key = some serverId then
    redisExpire st key ttlSeconds
  else
    (0, st)

/-- `safeClearIfOwned(email, serverId)`: update last-seen, then the
owner-guarded delete script `if GET(key)==serverId then DEL(key) else 0`;
true exactly when the script returned 1. -/
def safeClearIfOwned (st : Store) (email serverId : String) (nowMs : Int) :
    Bool × Store :=
  let n := normalizeEmail email
  let st1 := updateLastSeen st n nowMs
  let key := presenceKey n
  if redisGet st1 key = some serverId then
    (true, redisDel st1 key)
  else
    (false, st1)

/-- `isOnline(email)`: `EXISTS presenceKey == 1`. -/
def isOnline (st : Store) (email : String) : Bool :=
  redisExists st (presenceKey (normalizeEmail email)) = 1

/-- `getBatchPresence(emails)`: one EXISTS per normalized email, results
in order. -/
def getBatchPresence (st : Store) (emails : List String) :
    List (String × Bool) :=
  if emails = [] then []
  else
    (emails.map normalizeEmail).map
      (fun e => (e, redisExists st (presenceKey e) = 1))

end PresenceMjs

section StoreLemmas

open Presence PresenceMjs

theorem presenceKey_ne_lastSeenKey (a b : String) :
    presenceKey a ≠ lastSeenKey b := by
  intro h
  have hd := congrArg String.data h
  simp only [presenceKey, lastSeenKey] at hd
  rw [String.data_append, String.data_append] at hd
  have h1 : ("presence:user:" : String).data =
      ['p','r','e','s','e','n','c','e',':','u','s','e','r',':'] := rfl
  have h2 : ("presence:lastseen:" : String).data =
      ['p','r','e','s','e','n','c','e',':','l','a','s','t','s','e','e','n',':'] := rfl
  rw [h1, h2] at hd
  have h9 := congrArg (fun l => l[9]?) hd
  simp at h9

@[simp] theorem redisGet_set_self (st : Store) (k v : String) (ttl : Option Nat) :
    redisGet (redisSet st k v ttl) k = some v := by
  simp [redisGet, redisSet]

@[simp] theorem redisGet_set_other (st : Store) (k k' v : String)
    (ttl : Option Nat) (h : k' ≠ k) :
    redisGet (redisSet st k v ttl) k' = redisGet st k' := by
  simp [redisGet, redisSet, h]

@[simp] theorem redisGet_del_self (st : Store) (k : String) :
    redisGet (redisDel st k) k = none := by
  simp [redisGet, redisDel]

@[simp] theorem redisGet_del_other (st : Store) (k k' : String) (h : k' ≠ k) :
    redisGet (redisDel st k) k' = redisGet st k' := by
  simp [redisGet, redisDel, h]

end StoreLemmas

section PresenceRegistryClaims

open Presence PresenceMjs

/-- C1: after `claim_online(u, S)` then `claim_online(u, S2)` with
`S ≠ S2`, a `refresh(u, S)` by the old owner returns the script result 0
and leaves the presence key's value at `S2`. -/
theorem reclaim_blocks_stale_refresh
    (ttl : Nat) (st : Store) (u S S2 : String) (h : S ≠ S2) :
    (refreshPresence ttl ((setOnline ttl ((setOnline ttl st u S).2) u S2).2) u S).1 = 0 ∧
      redisGet (refreshPresence ttl ((setOnline ttl ((setOnline ttl st u S).2) u S2).2) u S).2
        (presenceKey (normalizeEmail u)) = some S2 := by
  have hget :
      redisGet ((setOnline ttl ((setOnline ttl st u S).2) u S2).2)
        (presenceKey (normalizeEmail u)) = some S2 := by
    simp [setOnline]
  have hne : ¬ (some S2 = some S) := by
    simp [Ne.symm h]
  constructor
  · simp [refreshPresence, hget, hne]
  · simp [refreshPresence, hget, hne]

/-- C1 witness at a concrete input. -/
theorem reclaim_blocks_stale_refresh_witness :
    ("s1" : String) ≠ "s2" ∧
      ((refreshPresence 120 ((setOnline 120 ((setOnline 120 emptyStore "a@x.com" "s1").2) "a@x.com" "s2").2) "a@x.com" "s1").1 = 0 ∧
        redisGet (refreshPresence 120 ((setOnline 120 ((setOnline 120 emptyStore "a@x.com" "s1").2) "a@x.com" "s2").2) "a@x.com" "s1").2
          (presenceKey (normalizeEmail "a@x.com")) = some "s2") :=
  ⟨by decide, reclaim_blocks_stale_refresh 120 emptyStore "a@x.com" "s1" "s2" (by decide)⟩

/-- C2: after `claim_online(u, S)`, `release_if_owned(u, S)` returns
true, afterwards `is_online(u)` is false, and an immediately repeated
second `release_if_owned(u, S)` returns false. -/
theorem release_if_owned_roundtrip
    (ttl : Nat) (st : Store) (u S : String) (now1 now2 : Int) :
    (safeClearIfOwned ((setOnline ttl st u S).2) u S now1).1 = true ∧
      isOnline (safeClearIfOwned ((setOnline ttl st u S).2) u S now1).2 u = false ∧
      (safeClearIfOwned ((safeClearIfOwned ((setOnline ttl st u S).2) u S now1).2) u S now2).1 = false := by
  have hne := presenceKey_ne_lastSeenKey (normalizeEmail u)
      (normalizeEmail (normalizeEmail u))
  have hget1 :
      redisGet (updateLastSeen ((setOnline ttl st u S).2) (normalizeEmail u) now1)
        (presenceKey (normalizeEmail u)) = some S := by
    simp [updateLastSeen, setOnline, hne, redisGet_set_other]
  have hfirst : safeClearIfOwned ((setOnline ttl st u S).2) u S now1
      = (true, redisDel (updateLastSeen ((setOnline ttl st u S).2) (normalizeEmail u) now1)
          (presenceKey (normalizeEmail u))) := by
    simp only [safeClearIfOwned]
    rw [if_pos hget1]
  constructor
  · rw [hfirst]
  constructor
  · rw [hfirst]
    simp [isOnline, redisExists, redisDel]
  · rw [hfirst]
    have hget2 :
        redisGet (updateLastSeen (redisDel (updateLastSeen ((setOnline ttl st u S).2)
            (normalizeEmail u) now1) (presenceKey (normalizeEmail u))) (normalizeEmail u) now2)
          (presenceKey (normalizeEmail u)) = none := by
      simp only [updateLastSeen]
      rw [redisGet_set_other _ _ _ _ _ hne, redisGet_del_self]
    simp only [safeClearIfOwned]
    rw [if_neg (by rw [hget2]; simp)]


end PresenceRegistryClaims

namespace PresenceList

open Presence PresenceMjs

/-- `activeKey`: the last-active timestamp key. -/
def activeKey (email : String) : String :=
  "presence:active:" ++ email

/-- `bucketize(nowMs, lastActiveAtMs, online)`.  The guard
`if (!lastActiveAtMs)` is JavaScript falsiness: it fires on `null`
(modelled `none`) and on the number `0`. -/
def bucketize (nowMs : Int) (lastActiveAtMs : Option Int) (online : Bool) :
    String :=
  if online then "online_now"
  else if lastActiveAtMs = none ∨ lastActiveAtMs = some 0 then "unknown"
  else
    let d := nowMs - lastActiveAtMs.getD 0
    if d < 10000 then "active_10s"
    else if d < 60000 then "active_1m"
    else if d < 5 * 60000 then "active_5m"
    else if d < 15 * 60000 then "active_15m"
    else if d < 60 * 60000 then "active_1h"
    else if d < 24 * 60 * 60000 then "active_today"
    else "inactive"

/-- One row of `getBatchPresenceForList`'s result. -/
structure PresenceItem where
  email : String
  online : Bool
  lastActiveAt : Option Int
  bucket : String
  deriving DecidableEq, Repr

/-- One iteration of the loop that builds `normalized`: keep an entry
whose normalization is truthy (non-empty) and passes `isValidEmail`. -/
def validStep (acc : List String) (e : String) : List String :=
  let n := normalizeEmail e
  if n ≠ "" && isValidEmail n then acc ++ [n] else acc

/-- The `normalized` list: the surviving normalized entries, in input
order. -/
def validNormalized (emails : List String) : List String :=
  emails.foldl validStep []

/-- The survivor cast as an optional value: `some` of the normalized
email when it is kept, `none` when the entry is dropped. -/
def keptEmail (e : String) : Option String :=
  let n := normalizeEmail e
  if n ≠ "" && isValidEmail n then some n else none

/-- `Boolean(onlineServerId)` for the presence-key GET result. -/
def onlineOf (st : Store) (e : String) : Bool :=
  match redisGet st (presenceKey e) with
  | none => false
  | some s => s ≠ ""

/-- `lastActiveRaw ? Number(lastActiveRaw) : null`. -/
def lastActiveOf (st : Store) (e : String) : Option Int :=
  match redisGet st (activeKey e) with
  | none => none
  | some s => if s = "" then none else some (jsNumber s)

/-- `getBatchPresenceForList(emails)`: validate/normalize, then one
pipeline of GETs (presence key then active key per surviving email),
then assemble rows.  The second component records the keys read by the
pipeline, in order; the early returns issue no store command. -/
def getBatchPresenceForList (st : Store) (emails : List String)
    (nowMs : Int) : List PresenceItem × List String :=
  if emails = [] then ([], [])
  else
    let normalized := validNormalized emails
    if normalized = [] then ([], [])
    else
      let cmds := normalized.map presenceKey ++ normalized.map activeKey
      let items := normalized.map (fun e =>
        let online := onlineOf st e
        let lastActiveAt := lastActiveOf st e
        { email := e, online := online, lastActiveAt := lastActiveAt,
          bucket := bucketize nowMs lastActiveAt online : PresenceItem })
      (items, cmds)

end PresenceList

namespace UsersRoute

open Presence PresenceList

/-- The visible outcome of `POST /users/presence`. -/
inductive RouteResp where
  | badRequest (msg : String)
  | ok (users : List PresenceItem)
  deriving DecidableEq, Repr

/-- `POST /users/presence`: reject a non-array body, reject more than
500 entries, otherwise answer with the batch snapshot.  The second
component records the store keys read while serving the request. -/
def postUsersPresence (body : Option (List String)) (st : Store)
    (nowMs : Int) : RouteResp × List String :=
  match body with
  | none => (.badRequest "emails must be an array", [])
  | some emails =>
      if emails.length > 500 then
        (.badRequest "Maximum 500 emails per request", [])
      else
        let r := getBatchPresenceForList st emails nowMs
        (.ok r.1, r.2)

end UsersRoute

section BucketClaims

open Presence PresenceMjs PresenceList

/-- C8 counterexample: at `now = 5000`, `last_active_ms = 0` the
difference is `5000 ≥ 0` and below ten seconds, yet `bucketize` answers
`unknown` (JavaScript falsiness of 0), not `active_10s` as claimed. -/
theorem bucketize_zero_counterexample :
    (5000 : Int) - 0 ≥ 0 ∧ (5000 : Int) - 0 < 10000 ∧
      bucketize 5000 (some 0) false ≠ "active_10s" := by
  refine ⟨by decide, by decide, ?_⟩
  intro h
  simp [bucketize] at h

/-- C8 amended: for a positive last-active timestamp (the `0` timestamp
is swallowed by the falsiness guard and yields `unknown`), the offline
bucket thresholds are exactly the claimed ones, and `online = true`
always yields `online_now`. -/
theorem bucketize_thresholds (now last : Int) (hpos : 0 < last)
    (_hd : 0 ≤ now - last) :
    (bucketize now (some last) false =
      if now - last < 10000 then "active_10s"
      else if now - last < 60000 then "active_1m"
      else if now - last < 300000 then "active_5m"
      else if now - last < 900000 then "active_15m"
      else if now - last < 3600000 then "active_1h"
      else if now - last < 86400000 then "active_today"
      else "inactive") ∧
    (∀ (la : Option Int), bucketize now la true = "online_now") := by
  constructor
  · have hne : last ≠ 0 := hpos.ne'
    simp [bucketize, hne]
  · intro la
    simp [bucketize]

/-- C8 amended witness. -/
theorem bucketize_thresholds_witness :
    bucketize 5000 (some 1) false = "active_10s" ∧
      bucketize 5000 (some 1) true = "online_now" := by
  have h := bucketize_thresholds 5000 1 (by decide) (by decide)
  refine ⟨?_, h.2 (some 1)⟩
  rw [h.1]
  norm_num

/-- The bucket labels enumerated by the spec (`online_now` plus the
seven recency buckets). -/
def specBucketLabels : List String :=
  ["online_now", "active_10s", "active_1m", "active_5m", "active_15m",
   "active_1h", "active_today", "inactive"]

/-- C10: offline with a missing last-active timestamp yields the label
`unknown`, which is outside the spec's enumerated buckets; and
`inactive` is only produced when offline with a (truthy) timestamp at
least 24 hours old. -/
theorem bucketize_unknown_and_inactive :
    (∀ now : Int, bucketize now none false = "unknown") ∧
    "unknown" ∉ specBucketLabels ∧
    (∀ (now : Int) (la : Option Int) (online : Bool),
      bucketize now la online = "inactive" →
        online = false ∧ ∃ t, la = some t ∧ t ≠ 0 ∧ 86400000 ≤ now - t) := by
  refine ⟨fun now => by simp [bucketize], by decide, ?_⟩
  intro now la online h
  cases online
  · cases la with
    | none => simp [bucketize] at h
    | some t =>
        by_cases ht : t = 0
        · subst ht; simp [bucketize] at h
        · refine ⟨rfl, t, rfl, ht, ?_⟩
          simp only [bucketize, if_false, Bool.false_eq_true] at h
          split_ifs at h <;> simp_all
  · simp [bucketize] at h

/-- C10 witness: the inactive direction applied at a concrete input. -/
theorem bucketize_unknown_and_inactive_witness :
    false = false ∧ ∃ t, (some (1 : Int)) = some t ∧ t ≠ 0 ∧
      86400000 ≤ (86400001 : Int) - t := by
  exact bucketize_unknown_and_inactive.2.2 86400001 (some 1) false (by decide)

end BucketClaims

section BatchClaims

open Presence PresenceMjs PresenceList UsersRoute

theorem validNormalized_eq_filterMap (emails : List String) :
    validNormalized emails = emails.filterMap keptEmail := by
  have aux : ∀ (l acc : List String),
      l.foldl validStep acc = acc ++ l.filterMap keptEmail := by
    intro l
    induction l with
    | nil => intro acc; simp
    | cons x xs ih =>
        intro acc
        by_cases hx : (normalizeEmail x ≠ "" && isValidEmail (normalizeEmail x)) = true
        · have hk : keptEmail x = some (normalizeEmail x) := by
            simp only [keptEmail]
            rw [if_pos hx]
          have hs : validStep acc x = acc ++ [normalizeEmail x] := by
            simp only [validStep]
            rw [if_pos hx]
          rw [List.foldl_cons, hs, ih, List.filterMap_cons_some hk]
          simp
        · have hk : keptEmail x = none := by
            simp only [keptEmail]
            rw [if_neg hx]
          have hs : validStep acc x = acc := by
            simp only [validStep]
            rw [if_neg hx]
          rw [List.foldl_cons, hs, ih, List.filterMap_cons_none hk]
  unfold validNormalized
  rw [aux]
  simp

/-- C9: the batch snapshot silently drops entries failing validation
(no result row, no store read for them), keeps survivors in input
order, reads exactly one presence key and one active key per survivor,
and issues no store command at all when nothing survives. -/
theorem getBatchPresenceForList_drops_invalid
    (st : Store) (emails : List String) (nowMs : Int) :
    ((getBatchPresenceForList st emails nowMs).1.map PresenceItem.email
        = emails.filterMap keptEmail) ∧
    ((getBatchPresenceForList st emails nowMs).2
        = (emails.filterMap keptEmail).map presenceKey
            ++ (emails.filterMap keptEmail).map activeKey) ∧
    (emails.filterMap keptEmail = [] →
        getBatchPresenceForList st emails nowMs = ([], [])) := by
  have hvn := validNormalized_eq_filterMap emails
  by_cases h0 : emails = []
  · subst h0
    refine ⟨by simp [getBatchPresenceForList], by simp [getBatchPresenceForList], ?_⟩
    intro
    simp [getBatchPresenceForList]
  · by_cases h1 : validNormalized emails = []
    · have h1' : emails.filterMap keptEmail = [] := by rw [← hvn]; exact h1
      refine ⟨?_, ?_, ?_⟩ <;>
        simp [getBatchPresenceForList, h0, h1, h1']
    · have h1' : ¬ emails.filterMap keptEmail = [] := by rw [← hvn]; exact h1
      have heq : getBatchPresenceForList st emails nowMs
          = ((validNormalized emails).map (fun e =>
              { email := e, online := onlineOf st e, lastActiveAt := lastActiveOf st e,
                bucket := bucketize nowMs (lastActiveOf st e) (onlineOf st e) : PresenceItem }),
             (validNormalized emails).map presenceKey
               ++ (validNormalized emails).map activeKey) := by
        simp only [getBatchPresenceForList]
        rw [if_neg h0, if_neg h1]
      refine ⟨?_, ?_, ?_⟩
      · rw [heq]
        simp only [List.map_map]
        rw [← hvn]
        exact List.map_id _
      · rw [heq, hvn]
      · intro hc
        exact absurd hc h1'

/-- C9 witness: the empty-survivor implication at a concrete input. -/
theorem getBatchPresenceForList_drops_invalid_witness :
    (["not-an-email"] : List String).filterMap PresenceList.keptEmail = [] ∧
      getBatchPresenceForList emptyStore ["not-an-email"] 0 = ([], []) := by
  refine ⟨by decide, ?_⟩
  exact (getBatchPresenceForList_drops_invalid emptyStore ["not-an-email"] 0).2.2 (by decide)

/-- C7: an oversized batch presence request (more than 500 entries)
fails with the validation error and issues no store command; a request
of at most 500 entries proceeds to the batch snapshot. -/
theorem postUsersPresence_size_limit
    (emails : List String) (st : Store) (nowMs : Int) :
    (500 < emails.length →
      postUsersPresence (some emails) st nowMs
        = (.badRequest "Maximum 500 emails per request", [])) ∧
    (emails.length ≤ 500 →
      postUsersPresence (some emails) st nowMs
        = (.ok (getBatchPresenceForList st emails nowMs).1,
            (getBatchPresenceForList st emails nowMs).2)) := by
  constructor
  · intro h
    simp [postUsersPresence, h]
  · intro h
    have h' : ¬ (emails.length > 500) := by omega
    simp [postUsersPresence, h']

/-- C7 witness: 501 entries are rejected with no store command; one
entry proceeds. -/
theorem postUsersPresence_size_limit_witness :
    (500 < (List.replicate 501 "a@x.com").length ∧
      postUsersPresence (some (List.replicate 501 "a@x.com")) emptyStore 0
        = (.badRequest "Maximum 500 emails per request", [])) ∧
    ((["a@x.com"] : List String).length ≤ 500 ∧
      postUsersPresence (some ["a@x.com"]) emptyStore 0
        = (.ok (getBatchPresenceForList emptyStore ["a@x.com"] 0).1,
            (getBatchPresenceForList emptyStore ["a@x.com"] 0).2)) := by
  have h501 : (500 : Nat) < (List.replicate 501 "a@x.com").length := by
    rw [List.length_replicate]
    omega
  refine ⟨⟨h501, ?_⟩, ⟨by simp, ?_⟩⟩
  · exact (postUsersPresence_size_limit (List.replicate 501 "a@x.com") emptyStore 0).1 h501
  · exact (postUsersPresence_size_limit ["a@x.com"] emptyStore 0).2 (by simp)

end BatchClaims

namespace WsServer

open Presence PresenceMjs

/-- JavaScript `Set.prototype.add` on an insertion-ordered list. -/
def jsSetAdd {α : Type} [DecidableEq α] (l : List α) (x : α) : List α :=
  if x ∈ l then l else l ++ [x]

/-- JavaScript `Set.prototype.delete` on an insertion-ordered list. -/
def jsSetDelete {α : Type} [DecidableEq α] (l : List α) (x : α) : List α :=
  l.filter (fun y => y ≠ x)

/-- The two focus-index maps of the WebSocket server:
`subscriptions` (session id → set of observed emails) and `watchedBy`
(email → set of session ids); an absent map entry is `none`. -/
structure WsState where
  subs : Nat → Option (List String)
  watched : String → Option (List Nat)

/-- Fresh server state: both maps empty. -/
def emptyWsState : WsState := ⟨fun _ => none, fun _ => none⟩

/-- `subscriptions.set(ws, v)` / `subscriptions.delete(ws)`. -/
def updSubs (st : WsState) (k : Nat) (v : Option (List String)) : WsState :=
  { st with subs := fun x => if x = k then v else st.subs x }

/-- `watchedBy.set(email, v)` / `watchedBy.delete(email)`. -/
def updWatched (st : WsState) (k : String) (v : Option (List Nat)) : WsState :=
  { st with watched := fun x => if x = k then v else st.watched x }

/-- The `toAdd` loop of `handleSubscribe`: stop once the accumulated
list reaches `availableSlots`; skip entries already in the session's
focus set (but not entries already accumulated in this request). -/
def subscribeLoop (clientSubs : List String) (slots : Nat) :
    List String → List String → List String
  | acc, [] => acc
  | acc, e :: rest =>
      if slots ≤ acc.length then acc
      else
        let n := normalizeEmail e
        if n ∈ clientSubs then subscribeLoop clientSubs slots acc rest
        else subscribeLoop clientSubs slots (acc ++ [n]) rest

/-- The accepted entries of a focus request, given the configured cap
and the session's current focus set. -/
def subscribeToAdd (cfgMax : Int) (clientSubs : List String)
    (emails : List String) : List String :=
  subscribeLoop clientSubs (cfgMax - (clientSubs.length : Int)).toNat [] emails

/-- Replies of `handleSubscribe`. -/
inductive SubReply where
  | errNotArray
  | errNotAuth
  | errRate
  | errMaxed
  | ok (statuses : List (String × Bool))
  deriving DecidableEq, Repr

/-- The `watchedBy` registrations of a subscribe: for each accepted
email, get-or-create the watcher set and add this session. -/
def addWatchers (wsId : Nat) (st : WsState) (toAdd : List String) : WsState :=
  toAdd.foldl
    (fun s e => updWatched s e (some (jsSetAdd ((s.watched e).getD []) wsId)))
    st

/-- `handleSubscribe(ws, message)`: validation, auth and rate gates,
capacity check, the `toAdd` filter, then registration in both focus
maps and a snapshot reply.  (The Redis watcher-set write is outside the
two local maps and not modelled.) -/
def handleSubscribe (cfgMax : Int) (store : Store) (st : WsState)
    (wsId : Nat) (userKey : Option String) (rateOk : Bool)
    (emails? : Option (List String)) : WsState × SubReply :=
  match emails? with
  | none => (st, .errNotArray)
  | some emails =>
      if userKey.isNone then (st, .errNotAuth)
      else if !rateOk then (st, .errRate)
      else
        let clientSubs := (st.subs wsId).getD []
        let st0 := if (st.subs wsId).isNone then updSubs st wsId (some []) else st
        if cfgMax - (clientSubs.length : Int) ≤ 0 then (st0, .errMaxed)
        else
          let toAdd := subscribeToAdd cfgMax clientSubs emails
          if toAdd = [] then (st0, .ok [])
          else
            let newSubs := toAdd.foldl jsSetAdd clientSubs
            let st1 := updSubs st0 wsId (some newSubs)
            let st2 := addWatchers wsId st1 toAdd
            (st2, .ok (getBatchPresence store toAdd))

/-- Replies of `handleUnsubscribe` (`silent` is the bare `return` taken
when the session has no subscription entry). -/
inductive UnsubReply where
  | errNotArray
  | silent
  | ok
  deriving DecidableEq, Repr

/-- Drop this session from one email's watcher set, deleting the map
entry when the set empties (shared by unsubscribe and disconnect
cleanup). -/
def removeWatcherLocal (wsId : Nat) (s : WsState) (n : String) : WsState :=
  match s.watched n with
  | none => s
  | some watchers =>
      if (jsSetDelete watchers wsId).length = 0 then updWatched s n none
      else updWatched s n (some (jsSetDelete watchers wsId))

/-- One iteration of `handleUnsubscribe`'s loop: normalize, remove from
the session's focus set, then from the email's watcher set. -/
def unsubStep (wsId : Nat) (s : WsState) (e : String) : WsState :=
  let n := normalizeEmail e
  let s1 := updSubs s wsId ((s.subs wsId).map (fun l => jsSetDelete l n))
  removeWatcherLocal wsId s1 n

/-- `handleUnsubscribe(ws, message)`. -/
def handleUnsubscribe (st : WsState) (wsId : Nat)
    (emails? : Option (List String)) : WsState × UnsubReply :=
  match emails? with
  | none => (st, .errNotArray)
  | some emails =>
      match st.subs wsId with
      | none => (st, .silent)
      | some _ => (emails.foldl (unsubStep wsId) st, .ok)

/-- `cleanupSubscriptions(ws)`: on disconnect, remove the session from
every watcher set it appears in and drop its subscription entry. -/
def cleanupSubscriptions (st : WsState) (wsId : Nat) : WsState :=
  match st.subs wsId with
  | none => st
  | some clientSubs =>
      if clientSubs.length = 0 then st
      else
        let st1 := clientSubs.foldl (removeWatcherLocal wsId) st
        updSubs st1 wsId none

/-- Mutual consistency of the two focus-index maps: a session observes
an email exactly when the email's watcher set contains the session. -/
def FocusInv (st : WsState) : Prop :=
  ∀ (s : Nat) (u : String),
    u ∈ (st.subs s).getD [] ↔ s ∈ (st.watched u).getD []

end WsServer

namespace WsServer

open Presence PresenceMjs

@[simp] theorem mem_jsSetAdd {α : Type} [DecidableEq α] (l : List α) (a x : α) :
    x ∈ jsSetAdd l a ↔ x ∈ l ∨ x = a := by
  unfold jsSetAdd
  split <;> rename_i h
  · constructor
    · exact Or.inl
    · rintro (hx | rfl)
      · exact hx
      · exact h
  · simp

@[simp] theorem mem_jsSetDelete {α : Type} [DecidableEq α] (l : List α) (a x : α) :
    x ∈ jsSetDelete l a ↔ x ∈ l ∧ x ≠ a := by
  simp [jsSetDelete]

theorem nodup_jsSetAdd {α : Type} [DecidableEq α] {l : List α} (a : α)
    (h : l.Nodup) : (jsSetAdd l a).Nodup := by
  unfold jsSetAdd
  split <;> rename_i hmem
  · exact h
  · exact List.Nodup.append h (List.nodup_singleton a)
      (List.disjoint_singleton.mpr hmem)

theorem mem_foldl_jsSetAdd {α : Type} [DecidableEq α] (L : List α) :
    ∀ (l : List α) (x : α), x ∈ L.foldl jsSetAdd l ↔ x ∈ l ∨ x ∈ L := by
  induction L with
  | nil => intro l x; simp
  | cons a t ih =>
      intro l x
      rw [List.foldl_cons, ih]
      simp [mem_jsSetAdd]
      tauto

theorem nodup_foldl_jsSetAdd {α : Type} [DecidableEq α] (L : List α) :
    ∀ {l : List α}, l.Nodup → (L.foldl jsSetAdd l).Nodup := by
  induction L with
  | nil => intro l h; exact h
  | cons a t ih =>
      intro l h
      rw [List.foldl_cons]
      exact ih (nodup_jsSetAdd a h)

@[simp] theorem subs_updWatched (st : WsState) (k : String)
    (v : Option (List Nat)) : (updWatched st k v).subs = st.subs := rfl

@[simp] theorem watched_updSubs (st : WsState) (k : Nat)
    (v : Option (List String)) : (updSubs st k v).watched = st.watched := rfl

@[simp] theorem subs_updSubs_self (st : WsState) (k : Nat)
    (v : Option (List String)) : (updSubs st k v).subs k = v := by
  simp [updSubs]

theorem subs_updSubs_other (st : WsState) (k k' : Nat)
    (v : Option (List String)) (h : k' ≠ k) :
    (updSubs st k v).subs k' = st.subs k' := by
  simp [updSubs, h]

@[simp] theorem watched_updWatched_self (st : WsState) (k : String)
    (v : Option (List Nat)) : (updWatched st k v).watched k = v := by
  simp [updWatched]

theorem watched_updWatched_other (st : WsState) (k k' : String)
    (v : Option (List Nat)) (h : k' ≠ k) :
    (updWatched st k v).watched k' = st.watched k' := by
  simp [updWatched, h]

theorem subs_addWatchers (wsId : Nat) (L : List String) :
    ∀ st : WsState, (addWatchers wsId st L).subs = st.subs := by
  induction L with
  | nil => intro st; rfl
  | cons a t ih =>
      intro st
      unfold addWatchers
      rw [List.foldl_cons]
      exact ih _

theorem mem_watched_addWatchers (wsId : Nat) (L : List String) :
    ∀ (st : WsState) (u : String) (x : Nat),
      x ∈ ((addWatchers wsId st L).watched u).getD [] ↔
        x ∈ (st.watched u).getD [] ∨ (x = wsId ∧ u ∈ L) := by
  induction L with
  | nil => intro st u x; simp [addWatchers]
  | cons a t ih =>
      intro st u x
      unfold addWatchers
      rw [List.foldl_cons]
      have step := ih (updWatched st a (some (jsSetAdd ((st.watched a).getD []) wsId))) u x
      unfold addWatchers at step
      rw [step]
      by_cases hu : u = a
      · subst hu
        simp [mem_jsSetAdd]
        tauto
      · rw [watched_updWatched_other _ _ _ _ hu]
        simp [hu]

theorem subs_removeWatcherLocal (wsId : Nat) (s : WsState) (n : String) :
    (removeWatcherLocal wsId s n).subs = s.subs := by
  unfold removeWatcherLocal
  split
  · rfl
  · split <;> rfl

theorem mem_watched_removeWatcherLocal (wsId : Nat) (s : WsState)
    (n : String) (u : String) (x : Nat) :
    x ∈ ((removeWatcherLocal wsId s n).watched u).getD [] ↔
      x ∈ ((s.watched u).getD []) ∧ ¬(x = wsId ∧ u = n) := by
  unfold removeWatcherLocal
  split <;> rename_i heq
  · -- no watcher entry for n
    by_cases hu : u = n
    · subst hu
      simp [heq]
    · simp [hu]
  · rename_i watchers
    by_cases hu : u = n
    · subst hu
      split <;> rename_i hlen
      · -- entry deleted because the filtered set is empty
        simp only [watched_updWatched_self, Option.getD_none, List.not_mem_nil,
          false_iff, heq, Option.getD_some]
        intro hx
        rcases hx with ⟨hxw, hnot⟩
        have hxne : x ≠ wsId := fun hxe => hnot ⟨hxe, trivial⟩
        have : x ∈ jsSetDelete watchers wsId := by
          simp [mem_jsSetDelete, hxw, hxne]
        rw [List.length_eq_zero.mp hlen] at this
        simp at this
      · simp [heq, mem_jsSetDelete]
    · have hne : u ≠ n := hu
      split
      · rw [watched_updWatched_other _ _ _ _ hne]
        simp [hu]
      · rw [watched_updWatched_other _ _ _ _ hne]
        simp [hu]

end WsServer

namespace WsServer

open Presence PresenceMjs

theorem subs_foldl_removeWatcherLocal (wsId : Nat) (L : List String) :
    ∀ st : WsState,
      (L.foldl (removeWatcherLocal wsId) st).subs = st.subs := by
  induction L with
  | nil => intro st; rfl
  | cons a t ih =>
      intro st
      rw [List.foldl_cons, ih, subs_removeWatcherLocal]

theorem mem_watched_foldl_removeWatcherLocal (wsId : Nat) (L : List String) :
    ∀ (st : WsState) (u : String) (x : Nat),
      x ∈ ((L.foldl (removeWatcherLocal wsId) st).watched u).getD [] ↔
        x ∈ (st.watched u).getD [] ∧ ¬(x = wsId ∧ u ∈ L) := by
  induction L with
  | nil => intro st u x; simp
  | cons a t ih =>
      intro st u x
      rw [List.foldl_cons, ih, mem_watched_removeWatcherLocal]
      simp only [List.mem_cons]
      tauto

theorem focusInv_unsubStep (wsId : Nat) (s : WsState) (e : String)
    (h : FocusInv s) : FocusInv (unsubStep wsId s e) := by
  intro s' u
  unfold unsubStep
  rw [mem_watched_removeWatcherLocal]
  have hsubs := subs_removeWatcherLocal wsId
    (updSubs s wsId ((s.subs wsId).map (fun l => jsSetDelete l (normalizeEmail e))))
    (normalizeEmail e)
  rw [congrFun hsubs s']
  simp only [watched_updSubs]
  by_cases hs' : s' = wsId
  · subst hs'
    rw [subs_updSubs_self]
    have hinv := h s' u
    cases hsw : s.subs s' with
    | none =>
        rw [hsw] at hinv
        simp only [Option.getD_none, List.not_mem_nil, false_iff] at hinv
        simp [hinv]
    | some l =>
        rw [hsw] at hinv
        simp only [Option.getD_some] at hinv
        simp only [Option.map_some', Option.getD_some, mem_jsSetDelete]
        rw [hinv]
        tauto
  · rw [subs_updSubs_other _ _ _ _ hs']
    have hinv := h s' u
    rw [hinv]
    tauto

theorem focusInv_handleUnsubscribe (st : WsState) (wsId : Nat)
    (emails? : Option (List String)) (h : FocusInv st) :
    FocusInv (handleUnsubscribe st wsId emails?).1 := by
  unfold handleUnsubscribe
  match emails? with
  | none => exact h
  | some emails =>
      match st.subs wsId with
      | none => exact h
      | some l =>
          simp only
          have : ∀ (L : List String) (s : WsState), FocusInv s →
              FocusInv (L.foldl (unsubStep wsId) s) := by
            intro L
            induction L with
            | nil => intro s hs; exact hs
            | cons a t ih =>
                intro s hs
                rw [List.foldl_cons]
                exact ih _ (focusInv_unsubStep wsId s a hs)
          exact this emails st h

theorem focusInv_cleanupSubscriptions (st : WsState) (wsId : Nat)
    (h : FocusInv st) : FocusInv (cleanupSubscriptions st wsId) := by
  unfold cleanupSubscriptions
  cases hsw : st.subs wsId with
  | none => exact h
  | some clientSubs =>
      simp only
      split
      · exact h
      · intro s' u
        by_cases hs' : s' = wsId
        · subst hs'
          rw [subs_updSubs_self]
          simp only [Option.getD_none, List.not_mem_nil, false_iff,
            watched_updSubs]
          rw [mem_watched_foldl_removeWatcherLocal]
          have hinv := h s' u
          rw [hsw] at hinv
          simp only [Option.getD_some] at hinv
          rw [← hinv]
          tauto
        · rw [subs_updSubs_other _ _ _ _ hs']
          simp only [watched_updSubs]
          rw [congrFun (subs_foldl_removeWatcherLocal wsId clientSubs st) s',
            mem_watched_foldl_removeWatcherLocal]
          have hinv := h s' u
          rw [hinv]
          tauto

end WsServer

namespace WsServer

open Presence PresenceMjs

theorem focusInv_createEntry (st : WsState) (wsId : Nat) (h : FocusInv st) :
    FocusInv (if (st.subs wsId).isNone then updSubs st wsId (some []) else st) := by
  split <;> rename_i hnone
  · intro s' u
    simp only [watched_updSubs]
    by_cases hs' : s' = wsId
    · subst hs'
      rw [subs_updSubs_self]
      have hinv := h s' u
      rw [Option.isNone_iff_eq_none] at hnone
      rw [hnone] at hinv
      simpa using hinv
    · rw [subs_updSubs_other _ _ _ _ hs']
      exact h s' u
  · exact h

theorem focusInv_registerAdds (st0 : WsState) (wsId : Nat)
    (clientSubs toAdd : List String)
    (hcs : (st0.subs wsId).getD [] = clientSubs) (h : FocusInv st0) :
    FocusInv (addWatchers wsId
      (updSubs st0 wsId (some (toAdd.foldl jsSetAdd clientSubs))) toAdd) := by
  intro s' u
  rw [congrFun (subs_addWatchers wsId toAdd _) s', mem_watched_addWatchers]
  simp only [watched_updSubs]
  by_cases hs' : s' = wsId
  · subst hs'
    rw [subs_updSubs_self]
    simp only [Option.getD_some]
    rw [mem_foldl_jsSetAdd]
    have hinv := h s' u
    rw [hcs] at hinv
    rw [hinv]
    tauto
  · rw [subs_updSubs_other _ _ _ _ hs']
    have hinv := h s' u
    rw [hinv]
    tauto

theorem focusInv_handleSubscribe (cfgMax : Int) (store : Store)
    (st : WsState) (wsId : Nat) (userKey : Option String) (rateOk : Bool)
    (emails? : Option (List String)) (h : FocusInv st) :
    FocusInv (handleSubscribe cfgMax store st wsId userKey rateOk emails?).1 := by
  unfold handleSubscribe
  match emails? with
  | none => exact h
  | some emails =>
      simp only
      split
      · exact h
      split
      · exact h
      split
      · exact focusInv_createEntry st wsId h
      split
      · exact focusInv_createEntry st wsId h
      · refine focusInv_registerAdds _ wsId ((st.subs wsId).getD []) _ ?_
          (focusInv_createEntry st wsId h)
        split <;> rename_i hnone
        · rw [subs_updSubs_self]
          rw [Option.isNone_iff_eq_none] at hnone
          rw [hnone]
          rfl
        · rfl

end WsServer

namespace WsServer

open Presence PresenceMjs

/-- The per-connection fields read by the transport-level pong handler,
together with the session's focus set (which the handler does not
read). -/
structure PongCtx where
  userKey : Option String
  focusSet : List String
  nextPresenceRefreshAt : Nat
  deriving DecidableEq, Repr

/-- `refreshEveryMs = Math.max(10_000, Math.floor(ttl * 1000 / 2))`. -/
def refreshEveryMs (presenceTtlSeconds : Nat) : Nat :=
  max 10000 (presenceTtlSeconds * 1000 / 2)

/-- The `ws.on('pong')` handler: when the session has a user key and
the throttle deadline has passed, call `refreshPresence` and re-arm the
deadline.  Returns whether refresh was called, plus the updated
connection state. -/
def handlePong (presenceTtlSeconds nowMs : Nat) (c : PongCtx) :
    Bool × PongCtx :=
  match c.userKey with
  | none => (false, c)
  | some _ =>
      if c.nextPresenceRefreshAt ≤ nowMs then
        (true,
          { c with nextPresenceRefreshAt :=
              nowMs + refreshEveryMs presenceTtlSeconds })
      else (false, c)

/-- Replies of the client-message ping handlers. -/
inductive PingReply where
  | pong
  | errorNotAuth
  deriving DecidableEq, Repr

/-- wo-ts `handleMessage` case `'ping'`: reply `pong`; no presence
refresh, no auth check.  The Bool records whether `refreshPresence` was
invoked. -/
def handleMessageClientPing (_userKey : Option String) : PingReply × Bool :=
  (.pong, false)

/-- TS backend `handlePing`: error when unauthenticated; otherwise
`refreshPresence` is invoked and a `pong` is sent. -/
def handlePingTs (userKey : Option String) : PingReply × Bool :=
  match userKey with
  | none => (.errorNotAuth, false)
  | some _ => (.pong, true)

/-- C3 counterexample: an authenticated session whose focus set is
empty still triggers a refresh from the pong handler (the handler never
consults the focus set), contradicting the claimed focus gate. -/
theorem pong_refresh_ignores_empty_focus :
    (handlePong 120 0
        { userKey := some "a@x.com", focusSet := [],
          nextPresenceRefreshAt := 0 }).1 = true ∧
      ({ userKey := some "a@x.com", focusSet := [],
          nextPresenceRefreshAt := 0 } : PongCtx).focusSet = [] :=
  ⟨rfl, rfl⟩

/-- C3 amended: the pong handler calls `refresh` exactly when the
session is authenticated and the per-session cooldown has elapsed,
regardless of the focus set; a successful refresh re-arms the deadline
by `max(10 s, presence_ttl/2)`, which is at least `presence_ttl/2`. -/
theorem pong_refresh_condition (ttl nowMs : Nat) (c : PongCtx) :
    ((handlePong ttl nowMs c).1 = true ↔
      c.userKey.isSome = true ∧ c.nextPresenceRefreshAt ≤ nowMs) ∧
    ((handlePong ttl nowMs c).1 = true →
      (handlePong ttl nowMs c).2.nextPresenceRefreshAt
        = nowMs + refreshEveryMs ttl) ∧
    ttl * 1000 / 2 ≤ refreshEveryMs ttl := by
  refine ⟨?_, ?_, Nat.le_max_right _ _⟩
  · cases hk : c.userKey with
    | none => simp [handlePong, hk]
    | some u =>
        simp only [handlePong, hk, Option.isSome_some, true_and]
        split <;> rename_i hle
        · simpa using hle
        · simpa using hle
  · cases hk : c.userKey with
    | none =>
        intro hfalse
        simp [handlePong, hk] at hfalse
    | some u =>
        simp only [handlePong, hk]
        split <;> rename_i hle
        · intro
          rfl
        · intro hfalse
          simp at hfalse

/-- C3 amended witness. -/
theorem pong_refresh_condition_witness :
    (handlePong 120 0
        ⟨some "a@x.com", ["b@x.com"], 0⟩).2.nextPresenceRefreshAt
      = 0 + refreshEveryMs 120 :=
  (pong_refresh_condition 120 0 ⟨some "a@x.com", ["b@x.com"], 0⟩).2.1 rfl

/-- C4 counterexample: in the TypeScript backend's `handlePing`, a
client-sent `ping` from an authenticated session does refresh the
presence key (and is answered with `pong`). -/
theorem ts_client_ping_refreshes :
    (handlePingTs (some "a@x.com")).2 = true ∧
      (handlePingTs (some "a@x.com")).1 = PingReply.pong :=
  ⟨rfl, rfl⟩

/-- C4 amended: the wo-ts server answers every client `ping` with
`pong` and never refreshes presence from it (transport pong drives
refresh); the TypeScript backend's `handlePing` instead refreshes the
presence key for an authenticated session and replies with an error for
an unauthenticated one. -/
theorem client_ping_refresh_split (u : String) :
    (∀ k : Option String, handleMessageClientPing k = (.pong, false)) ∧
    handlePingTs (some u) = (.pong, true) ∧
    handlePingTs none = (.errorNotAuth, false) :=
  ⟨fun _ => rfl, rfl, rfl⟩

/-- C5: the subscribe, unsubscribe and disconnect-cleanup handlers each
preserve mutual consistency of the session-to-observed-keys and
observed-key-to-sessions maps. -/
theorem focus_maps_mutually_consistent
    (cfgMax : Int) (store : Store) (st : WsState) (wsId : Nat)
    (userKey : Option String) (rateOk : Bool)
    (emails? : Option (List String)) (h : FocusInv st) :
    FocusInv (handleSubscribe cfgMax store st wsId userKey rateOk emails?).1 ∧
    FocusInv (handleUnsubscribe st wsId emails?).1 ∧
    FocusInv (cleanupSubscriptions st wsId) :=
  ⟨focusInv_handleSubscribe cfgMax store st wsId userKey rateOk emails? h,
   focusInv_handleUnsubscribe st wsId emails? h,
   focusInv_cleanupSubscriptions st wsId h⟩

/-- C5 witness. -/
theorem focus_maps_mutually_consistent_witness :
    FocusInv (handleSubscribe 100 emptyStore emptyWsState 1
        (some "u@x.com") true (some ["a@x.com"])).1 ∧
    FocusInv (handleUnsubscribe emptyWsState 1 (some ["a@x.com"])).1 ∧
    FocusInv (cleanupSubscriptions emptyWsState 1) :=
  focus_maps_mutually_consistent 100 emptyStore emptyWsState 1
    (some "u@x.com") true (some ["a@x.com"])
    (fun s u => by simp [emptyWsState])

end WsServer

namespace WsServer

open Presence PresenceMjs

/-- C6 counterexample: a focus request repeating the same (normalized)
user key produces two snapshot entries for that user, and against a cap
of 2 the two duplicate occurrences exhaust the capacity window so a
third distinct user is silently dropped. -/
theorem subscribe_duplicates_counterexample :
    (handleSubscribe 100 emptyStore emptyWsState 1 (some "u@x.com") true
        (some ["a@x.com", "a@x.com"])).2
      = SubReply.ok [("a@x.com", false), ("a@x.com", false)] ∧
    (handleSubscribe 2 emptyStore emptyWsState 1 (some "u@x.com") true
        (some ["a@x.com", "a@x.com", "b@x.com"])).2
      = SubReply.ok [("a@x.com", false), ("a@x.com", false)] := by
  constructor <;> decide

/-- C6 amended: duplicates in a focus request are deduplicated only
against the session's existing focus set, not within the request: the
focus index still gains the user at most once (set semantics keeps the
session's focus list duplicate-free), but each occurrence passes the
`toAdd` filter, counts against the capacity window, and yields its own
entry in the snapshot statuses (which equal the batch presence of the
accepted occurrence list). -/
theorem subscribe_dedup_only_against_existing
    (cfgMax : Int) (store : Store) (st : WsState) (wsId : Nat)
    (u : String) (rateOk : Bool) (emails : List String)
    (hnodup : ((st.subs wsId).getD []).Nodup) :
    (∀ statuses,
      (handleSubscribe cfgMax store st wsId (some u) rateOk (some emails)).2
          = .ok statuses →
        statuses = getBatchPresence store
          (subscribeToAdd cfgMax ((st.subs wsId).getD []) emails)) ∧
    (((handleSubscribe cfgMax store st wsId (some u) rateOk
        (some emails)).1.subs wsId).getD []).Nodup := by
  unfold handleSubscribe
  simp only [Option.isNone_some, Bool.false_eq_true, if_false]
  cases rateOk with
  | false =>
      simp only [Bool.not_false, if_true]
      refine ⟨?_, hnodup⟩
      intro statuses hst
      simp at hst
  | true =>
      simp only [Bool.not_true, Bool.false_eq_true, if_false]
      split <;> rename_i hcap
      · refine ⟨?_, ?_⟩
        · intro statuses hst
          simp at hst
        · split <;> rename_i hnone
          · rw [subs_updSubs_self]
            simp
          · exact hnodup
      · split <;> rename_i hempty
        · refine ⟨?_, ?_⟩
          · intro statuses hst
            simp only [SubReply.ok.injEq] at hst
            rw [← hst, hempty]
            rfl
          · split <;> rename_i hnone
            · rw [subs_updSubs_self]
              simp
            · exact hnodup
        · refine ⟨?_, ?_⟩
          · intro statuses hst
            simp only [SubReply.ok.injEq] at hst
            exact hst.symm
          · rw [congrFun (subs_addWatchers wsId _ _) wsId, subs_updSubs_self]
            simp only [Option.getD_some]
            exact nodup_foldl_jsSetAdd _ hnodup

/-- C6 amended witness. -/
theorem subscribe_dedup_only_against_existing_witness :
    ([("a@x.com", false), ("a@x.com", false)] : List (String × Bool))
        = getBatchPresence emptyStore
            (subscribeToAdd 100 ((emptyWsState.subs 1).getD [])
              ["a@x.com", "a@x.com"]) ∧
    (((handleSubscribe 100 emptyStore emptyWsState 1 (some "u@x.com") true
        (some ["a@x.com", "a@x.com"])).1.subs 1).getD []).Nodup := by
  have h := subscribe_dedup_only_against_existing 100 emptyStore
    emptyWsState 1 "u@x.com" true ["a@x.com", "a@x.com"]
    (by simp [emptyWsState])
  exact ⟨h.1 [("a@x.com", false), ("a@x.com", false)] (by decide), h.2⟩

end WsServer
